import Mathlib

/-!
Verification of the Nightscout CGM data client (`scripts/cgm.py`): a shallow
embedding of its settings provider, unit conversion, statistics, time-in-range
bucketing, ingestion loop, pattern/day queries, and day ranking, together with
theorems settling the specification claims.

Representation conventions of the embedding:
* Glucose values (`sgv`) and epoch-millisecond timestamps are integers, as in
  the SQLite schema (`sgv INTEGER`, `date_ms INTEGER`); missing/NULL fields are
  `Option`.
* Python `round(x, 1)` results (one-decimal floats) are represented exactly as
  integer counts of tenths; `round(x)` results as plain integers.  Python uses
  round-half-to-even, embedded exactly by `rheDiv` below.
* Library collaborators (SQLite `datetime(..., 'localtime')`, Python
  `datetime.fromisoformat`) are parameters of the embedding: functions from
  timestamps/strings supplied by the caller.
-/

deriving instance DecidableEq for Except

namespace NightscoutCGM

/-- Round-half-to-even (banker's rounding, as Python `round`) of the exact
fraction `a / b`, for a positive denominator `b`.  `Int.ediv`/`Int.emod` give
the floor quotient and a remainder in `[0, b)`, so `2 * r` against `b` decides
whether we are below, above, or exactly at the midpoint. -/
def rheDiv (a b : ℤ) : ℤ :=
  if 2 * Int.emod a b = b then
    (if Int.ediv a b % 2 = 0 then Int.ediv a b else Int.ediv a b + 1)
  else if 2 * Int.emod a b < b then Int.ediv a b else Int.ediv a b + 1

/-- Bounded binary search for the integer square root: invariant
`lo * lo ≤ n < hi * hi`.  The fuel argument only bounds the recursion; the
search stops as soon as the interval has shrunk to one integer. -/
def isqrtGo (n : ℕ) : ℕ → ℕ → ℕ → ℕ
  | 0, lo, _ => lo
  | fuel + 1, lo, hi =>
    let mid := (lo + hi) / 2
    if mid = lo then lo
    else if mid * mid ≤ n then isqrtGo n fuel mid hi
    else isqrtGo n fuel lo mid

/-- Integer square root (floor of the real square root), by binary search. -/
def isqrt (n : ℕ) : ℕ := isqrtGo n (n + 2) 0 (n + 1)

/-- Round-half-to-even of `Real.sqrt (A / B)` (for `B > 0`), computed exactly
on naturals.  The tie case `sqrt (A / B) = k + 1/2` happens exactly when
`4 * A / B` is the square of an odd integer; otherwise the result is
`⌊sqrt (A / B) + 1/2⌋ = (⌊sqrt (4 * A * B)⌋ / B + 1) / 2`.  This realizes
Python's `round((A / B) ** 0.5)` free of floating point. -/
def rheSqrtDiv (A B : ℕ) : ℕ :=
  let q := 4 * A / B
  let m := isqrt q
  if 4 * A % B = 0 && m * m = q && m % 2 = 1 then
    (if (m / 2) % 2 = 0 then m / 2 else m / 2 + 1)
  else (isqrt (4 * A * B) / B + 1) / 2

/-- ASCII lower-casing of one character (the fragment of Python `str.lower`
relevant to unit strings such as `"mg/dl"` / `"mmol/L"`). -/
def asciiLower (c : Char) : Char :=
  if 'A' ≤ c ∧ c ≤ 'Z' then Char.ofNat (c.toNat + 32) else c

/-- Lower-case a string character-wise. -/
def strLower (s : String) : String := String.mk (s.data.map asciiLower)

/-- `leadMatch p l` is true when the character list `p` starts the list `l`
(Python `str.startswith`). -/
def leadMatch : List Char → List Char → Bool
  | [], _ => true
  | _ :: _, [] => false
  | a :: as, b :: bs => a = b && leadMatch as bs

/-- Stable ascending insertion used to embed Python `sorted` / SQL `ORDER BY`:
the new element goes before the first strictly greater element. -/
def insertAsc (x : ℤ) : List ℤ → List ℤ
  | [] => [x]
  | y :: ys => if y < x then y :: insertAsc x ys else x :: y :: ys

/-- Ascending sort of integer values (Python `sorted(values)`). -/
def sortValues (l : List ℤ) : List ℤ := l.foldr insertAsc []

/-! ### Settings provider (`get_nightscout_settings`, `use_mmol`,
`convert_glucose`, `get_unit_label`, `get_thresholds`) -/

/-- The `thresholds` object of the remote `/status.json` settings; each field
may be absent. -/
structure RemoteThresholds where
  bgLow : Option ℤ
  bgTargetBottom : Option ℤ
  bgTargetTop : Option ℤ
  bgHigh : Option ℤ
deriving DecidableEq

/-- The remote settings object; `units` and `thresholds` may be absent. -/
structure RemoteSettings where
  units : Option String
  thresholds : Option RemoteThresholds
deriving DecidableEq

/-- The empty settings object the provider falls back to. -/
def emptySettings : RemoteSettings := ⟨none, none⟩

/-- `get_nightscout_settings`: the process-lifetime cached settings.  The
embedding takes the outcome of the one-time fetch as an argument: `some s` for
a successful fetch of settings `s`, `none` for any failure (network, parse,
missing `settings` key), in which case the cache becomes the empty object. -/
def get_nightscout_settings (fetched : Option RemoteSettings) : RemoteSettings :=
  match fetched with
  | some s => s
  | none => emptySettings

/-- `use_mmol`: the cached `units` string (default `"mg/dl"`) lower-cased
starts with `"mmol"`. -/
def use_mmol (fetched : Option RemoteSettings) : Bool :=
  let units := (get_nightscout_settings fetched).units.getD "mg/dl"
  leadMatch "mmol".data (strLower units).data

/-- `convert_glucose`, on tenths: argument and result are tenths of a unit.
For a raw value `x = vT/10` mg/dL the mmol branch is
`round(x / 18.0182, 1)`, whose tenths count is the half-even rounding of
`10 * x / 18.0182 = 10000 * vT / 180182`; the mg/dL branch passes through. -/
def convert_glucose (mmol : Bool) (vT : ℤ) : ℤ :=
  if mmol then rheDiv (10000 * vT) 180182 else vT

/-- `get_unit_label`. -/
def get_unit_label (mmol : Bool) : String := if mmol then "mmol/L" else "mg/dL"

/-- Glucose thresholds in mg/dL, ascending. -/
structure Thresholds where
  urgent_low : ℤ
  target_low : ℤ
  target_high : ℤ
  urgent_high : ℤ
deriving DecidableEq

/-- `get_thresholds`: each boundary from the cached settings with its
documented default. -/
def get_thresholds (fetched : Option RemoteSettings) : Thresholds :=
  let t := ((get_nightscout_settings fetched).thresholds).getD ⟨none, none, none, none⟩
  ⟨t.bgLow.getD 55, t.bgTargetBottom.getD 70, t.bgTargetTop.getD 180, t.bgHigh.getD 250⟩

/-! ### Descriptive statistics (`get_stats`) -/

/-- Result of `get_stats`; `mean`, `std`, `min`, `max`, `median` are display
values in tenths of the display unit. -/
structure Stats where
  count : ℕ
  mean : ℤ
  std : ℤ
  min : ℤ
  max : ℤ
  median : ℤ
  unit : String
deriving DecidableEq

/-- Sum of squares of a value list. -/
def sqSum (values : List ℤ) : ℤ := (values.map (fun x => x * x)).sum

/-- Tenths of `round(std, 1)` for the population standard deviation
`std = (sum((x - mean)^2) / n) ** 0.5`.  Exactly,
`sum((x - mean)^2) / n = (n * sum(x^2) - s^2) / n^2` with `s` the plain sum,
so the tenths count is the half-even rounding of
`sqrt(100 * (n * sum(x^2) - s^2) / n^2)`. -/
def stdTenths (values : List ℤ) : ℤ :=
  let n : ℤ := values.length
  let s := values.sum
  let s2 := sqSum values
  (rheSqrtDiv (100 * (n * s2 - s * s)).toNat (n * n).toNat : ℤ)

/-- `get_stats(values)`: `{}` (here `none`) on an empty list, else count,
rounded mean and population standard deviation, min, max, and the element at
index `n // 2` of the sorted sequence as median, each fed through
`convert_glucose`. -/
def get_stats (mmol : Bool) (values : List ℤ) : Option Stats :=
  match values with
  | [] => none
  | _ :: _ =>
    let sorted := sortValues values
    let n := values.length
    let s := values.sum
    some
      { count := n
        mean := convert_glucose mmol (rheDiv (10 * s) n)
        std := convert_glucose mmol (stdTenths values)
        min := convert_glucose mmol (10 * sorted.headD 0)
        max := convert_glucose mmol (10 * sorted.getLastD 0)
        median := convert_glucose mmol (10 * sorted.getD (n / 2) 0)
        unit := get_unit_label mmol }

/-! ### Time in range (`get_time_in_range`) -/

/-- Result of `get_time_in_range`: the five band shares, in tenths of a
percent. -/
structure TimeInRange where
  very_low_pct : ℤ
  low_pct : ℤ
  in_range_pct : ℤ
  high_pct : ℤ
  very_high_pct : ℤ
deriving DecidableEq

/-- Band membership `v < urgent_low`. -/
def veryLowB (t : Thresholds) (v : ℤ) : Bool := decide (v < t.urgent_low)

/-- Band membership `urgent_low <= v < target_low`. -/
def lowB (t : Thresholds) (v : ℤ) : Bool :=
  decide (t.urgent_low ≤ v) && decide (v < t.target_low)

/-- Band membership `target_low <= v <= target_high`. -/
def inRangeB (t : Thresholds) (v : ℤ) : Bool :=
  decide (t.target_low ≤ v) && decide (v ≤ t.target_high)

/-- Band membership `target_high < v <= urgent_high`. -/
def highB (t : Thresholds) (v : ℤ) : Bool :=
  decide (t.target_high < v) && decide (v ≤ t.urgent_high)

/-- Band membership `v > urgent_high`. -/
def veryHighB (t : Thresholds) (v : ℤ) : Bool := decide (t.urgent_high < v)

/-- `get_time_in_range(values)`: `{}` (here `none`) on an empty list, else for
each band `round(count / n * 100, 1)`, whose tenths count is the half-even
rounding of `1000 * count / n`. -/
def get_time_in_range (t : Thresholds) (values : List ℤ) : Option TimeInRange :=
  match values with
  | [] => none
  | _ :: _ =>
    let n : ℤ := values.length
    some
      { very_low_pct := rheDiv (1000 * (values.countP (veryLowB t))) n
        low_pct := rheDiv (1000 * (values.countP (lowB t))) n
        in_range_pct := rheDiv (1000 * (values.countP (inRangeB t))) n
        high_pct := rheDiv (1000 * (values.countP (highB t))) n
        very_high_pct := rheDiv (1000 * (values.countP (veryHighB t))) n }

/-! ### Local store and ingestion engine (`create_database`, `fetch_and_store`)

The SQLite table `readings(id TEXT PRIMARY KEY, sgv, date_ms, date_string,
trend, direction, device)` is embedded as a list of rows in insertion order.
The dedup probe `SELECT 1 FROM readings WHERE id = ?` follows SQL semantics:
a NULL id never matches.  -/

/-- One row of the `readings` table; every column may be NULL. -/
structure StoredReading where
  id : Option String
  sgv : Option ℤ
  date_ms : Option ℤ
  date_string : Option String
  trend : Option ℤ
  direction : Option String
  device : Option String
deriving DecidableEq

/-- One JSON entry of the remote `entries.json` page; every field may be
absent (`e.get(...)` returning `None`). -/
structure Entry where
  _id : Option String
  type : Option String
  sgv : Option ℤ
  date : Option ℤ
  dateString : Option String
  trend : Option ℤ
  direction : Option String
  device : Option String
deriving DecidableEq

/-- `SELECT 1 FROM readings WHERE id = ?`: true iff the probe id is non-NULL
and equals some stored id. -/
def containsId (store : List StoredReading) (oid : Option String) : Bool :=
  match oid with
  | none => false
  | some i => store.any (fun r => r.id = some i)

/-- The row `INSERT INTO readings VALUES (...)` builds from an entry. -/
def rowOfEntry (e : Entry) : StoredReading :=
  ⟨e._id, e.sgv, e.date, e.dateString, e.trend, e.direction, e.device⟩

/-- Per-entry body of the ingestion loop: skip non-`"sgv"` entries, probe the
id, insert and bump the counter when absent. -/
def upsertEntry (st : List StoredReading × ℕ) (e : Entry) : List StoredReading × ℕ :=
  if e.type = some "sgv" then
    if containsId st.1 e._id then st
    else (st.1 ++ [rowOfEntry e], st.2 + 1)
  else st

/-- Process one fetched page: fold `upsertEntry` over its entries in order. -/
def processPage (store : List StoredReading) (total : ℕ) (page : List Entry) :
    List StoredReading × ℕ :=
  page.foldl upsertEntry (store, total)

/-- Value of the Python expression `e.get("date", float("inf"))` and of the
running cursor: a finite integer or positive infinity. -/
inductive PyNum where
  | fin : ℤ → PyNum
  | inf : PyNum
deriving DecidableEq

/-- Python `min` on two such values. -/
def pmin : PyNum → PyNum → PyNum
  | .inf, y => y
  | x, .inf => x
  | .fin a, .fin b => .fin (min a b)

/-- `min(e.get("date", float("inf")) for e in entries)`; on an empty page the
fold yields `inf` (the Python `min` would raise, but the loop never reaches it
there). -/
def pageMin (page : List Entry) : PyNum :=
  page.foldr (fun e m => pmin (match e.date with | some d => .fin d | none => .inf) m) .inf

/-- `oldest < cutoff_ms`: infinity is never below the cutoff. -/
def pltCutoff (x : PyNum) (cutoff : ℤ) : Bool :=
  match x with
  | .fin a => decide (a < cutoff)
  | .inf => false

/-- `oldest - 1`: infinity minus one stays infinity (float arithmetic). -/
def psub1 : PyNum → PyNum
  | .fin a => .fin (a - 1)
  | .inf => .inf

/-- Python truthiness of the `oldest_date` variable (`None` initially):
`None`, and the integer `0`, are falsy; infinity is truthy. -/
def truthy : Option PyNum → Bool
  | none => false
  | some (.fin d) => d ≠ 0
  | some .inf => true

/-- The `find[date][$lte]` parameter of the next request: present exactly when
`oldest_date` is truthy (`if oldest_date: params[...] = oldest_date`). -/
def reqOf (od : Option PyNum) : Option PyNum :=
  if truthy od then od else none

/-- The paging loop of `fetch_and_store`.  `remote req` is the page the server
returns for a request with date filter `req` (`none` = no filter); the
embedding treats the transport as reliable, the `RequestException` abort path
is outside this loop.  The `fuel` argument bounds the number of iterations;
`none` means the loop was still running when the fuel ran out. -/
def fetchLoop (remote : Option PyNum → List Entry) (cutoff_ms : ℤ) :
    ℕ → Option PyNum → List StoredReading → ℕ → Option (List StoredReading × ℕ)
  | 0, _, _, _ => none
  | fuel + 1, od, store, total =>
    let entries := remote (reqOf od)
    if entries = [] then some (store, total)
    else
      let st := processPage store total entries
      let oldest := pageMin entries
      if pltCutoff oldest cutoff_ms then some st
      else fetchLoop remote cutoff_ms fuel (some (psub1 oldest)) st.1 st.2

/-- `fetch_and_store`: run the loop from no cursor and a zero counter over the
given store, returning `(final store, new_readings, total_readings)`. -/
def fetch_and_store (remote : Option PyNum → List Entry) (cutoff_ms : ℤ)
    (fuel : ℕ) (store : List StoredReading) :
    Option (List StoredReading × ℕ × ℕ) :=
  match fetchLoop remote cutoff_ms fuel none store 0 with
  | some (st, n) => some (st, n, st.length)
  | none => none

/-! ### Analysis (`analyze_cgm`)

`ensure_data` (auto-provisioning) is not re-modelled here: the analysis
functions take the store contents directly, and `days` / `cutoff_ms` stand for
the CLI argument and the derived `now - timedelta(days)` in epoch ms. -/

/-- The WHERE clause `date_ms >= ? AND sgv > 0` shared by `analyze_cgm`,
`query_patterns` and `find_patterns`; a NULL column fails any SQL
comparison. -/
def analyzeKeep (cutoff_ms : ℤ) (r : StoredReading) : Bool :=
  match r.date_ms, r.sgv with
  | some d, some s => decide (cutoff_ms ≤ d) && decide (0 < s)
  | _, _ => false

/-- Stable insertion by `date_ms` (missing dates sort as 0; the callers only
sort rows whose `date_ms` passed a comparison, hence is present). -/
def insertByDate (x : StoredReading) : List StoredReading → List StoredReading
  | [] => [x]
  | y :: ys =>
    if y.date_ms.getD 0 < x.date_ms.getD 0 then y :: insertByDate x ys
    else x :: y :: ys

/-- `ORDER BY date_ms`, ascending and stable. -/
def sortByDate (l : List StoredReading) : List StoredReading :=
  l.foldr insertByDate []

/-- The rows of `SELECT sgv, date_ms, date_string FROM readings WHERE
date_ms >= ? AND sgv > 0 ORDER BY date_ms`. -/
def analyzeRows (cutoff_ms : ℤ) (store : List StoredReading) : List StoredReading :=
  sortByDate (store.filter (analyzeKeep cutoff_ms))

/-- The raw mg/dL values of those rows (each is present and positive by the
filter). -/
def analyzeValues (cutoff_ms : ℤ) (store : List StoredReading) : List ℤ :=
  (analyzeRows cutoff_ms store).map (fun r => r.sgv.getD 0)

/-- Tenths of `round(3.31 + 0.02392 * raw_mean, 1)` for sum `s` over `n`
values: the half-even rounding of
`10 * (3.31 + 0.02392 * s / n) = (331000 * n + 2392 * s) / (10000 * n)`. -/
def gmiTenths (s n : ℤ) : ℤ := rheDiv (331000 * n + 2392 * s) (10000 * n)

/-- Tenths of `round((raw_std / raw_mean) * 100, 1) if raw_mean else 0`.
With `s` the sum and `s2` the sum of squares over `n` values,
`10 * 100 * std / mean = sqrt(1000000 * (n * s2 - s^2) / s^2)` up to the sign
of the mean; half-even rounding commutes with negation. -/
def cvTenths (values : List ℤ) : ℤ :=
  let n : ℤ := values.length
  let s := values.sum
  let s2 := sqSum values
  if s = 0 then 0
  else if 0 < s then (rheSqrtDiv (1000000 * (n * s2 - s * s)).toNat (s * s).toNat : ℤ)
  else -(rheSqrtDiv (1000000 * (n * s2 - s * s)).toNat (s * s).toNat : ℤ)

/-- `rows[0][2][:10] if rows[0][2] else "unknown"` (an empty string is
falsy). -/
def dateTag (r : StoredReading) : String :=
  match r.date_string with
  | some s => if s = "" then "unknown" else String.mk (s.data.take 10)
  | none => "unknown"

/-- Hourly breakdown: group values by parsed hour (0-23), skipping rows whose
`date_string` fails to parse, and average each group with `round(..., 0)`
before conversion.  `parseHour ds` embeds
`datetime.fromisoformat(ds.replace("Z", "+00:00")).hour` on a *string* `ds`
(`none` for the caught `ValueError`/`TypeError`), so its results lie in
0..23; iterating `List.range 24` realizes `sorted(hourly.items())`.  A NULL
`date_string` raises an uncaught `AttributeError` in Python
(`None.replace`), so `analyze_cgm` guards for it before calling this
function; the `none` branch here is that caller-excluded dead case. -/
def hourlyAverages (mmol : Bool) (parseHour : String → Option ℕ)
    (rows : List StoredReading) : List (ℕ × ℤ) :=
  let pairs := rows.filterMap (fun r =>
    match r.date_string with
    | some ds => (parseHour ds).map (fun h => (h, r.sgv.getD 0))
    | none => none)
  (List.range 24).filterMap (fun h =>
    match (pairs.filter (fun p => p.1 = h)).map (fun p => p.2) with
    | [] => none
    | v :: vs => some (h, convert_glucose mmol (10 * rheDiv (v + vs.sum) (vs.length + 1))))

/-- Result object of `analyze_cgm`; `gmi_estimated_a1c` and `cv_variability`
in tenths. -/
structure AnalyzeResult where
  date_from : String
  date_to : String
  days_analyzed : ℤ
  readings : ℕ
  statistics : Option Stats
  time_in_range : Option TimeInRange
  gmi_estimated_a1c : ℤ
  cv_variability : ℤ
  cv_status : String
  hourly_averages : List (ℕ × ℤ)
  unit : String
deriving DecidableEq

/-- `analyze_cgm`: query the non-zero readings of the window, then statistics,
time in range, GMI from the raw mean, CV, and hourly averages.  The hourly
loop calls `ds.replace` on every row's `date_string`, so a NULL value there
raises an uncaught `AttributeError` and the function returns nothing. -/
def analyze_cgm (mmol : Bool) (t : Thresholds) (parseHour : String → Option ℕ)
    (days cutoff_ms : ℤ) (store : List StoredReading) :
    Except String AnalyzeResult :=
  let rows := analyzeRows cutoff_ms store
  match rows with
  | [] => .error "No data found for the specified period."
  | r0 :: _ =>
    if rows.any (fun r => r.date_string = none) then .error "AttributeError"
    else
    let values := rows.map (fun r => r.sgv.getD 0)
    let n : ℤ := values.length
    let s := values.sum
    let cv := cvTenths values
    .ok
      { date_from := dateTag r0
        date_to := dateTag (rows.getLastD r0)
        days_analyzed := days
        readings := values.length
        statistics := get_stats mmol values
        time_in_range := get_time_in_range t values
        gmi_estimated_a1c := gmiTenths s n
        cv_variability := cv
        cv_status := if cv < 360 then "stable" else "high variability"
        hourly_averages := hourlyAverages mmol parseHour rows
        unit := get_unit_label mmol }

/-! ### Pattern query (`query_patterns`) -/

/-- Lower-case weekday names, indexed 0 = Monday. -/
def day_names : List String := ["monday", "tuesday", "wednesday", "thursday",
  "friday", "saturday", "sunday"]

/-- ASCII upper-casing of one character. -/
def asciiUpper (c : Char) : Char :=
  if 'a' ≤ c ∧ c ≤ 'z' then Char.ofNat (c.toNat - 32) else c

/-- Python `str.capitalize`: first character upper-cased, the rest
lower-cased. -/
def capitalizeStr (s : String) : String :=
  match s.data with
  | [] => ""
  | c :: cs => String.mk (asciiUpper c :: cs.map asciiLower)

/-- The `day_of_week` argument of `query_patterns`: an integer (0 = Monday) or
a day name. -/
inductive DayArg where
  | num : ℤ → DayArg
  | name : String → DayArg
deriving DecidableEq

/-- Name parsing of `day_of_week`: a string found in `day_names` (after
lower-casing) becomes its index; any other string stays a string. -/
def resolveDay : DayArg → DayArg
  | .name s =>
    match day_names.findIdx? (fun d => d = strLower s) with
    | some i => .num i
    | none => .name s
  | d => d

/-- The weekday test of the filter loop: no filter accepts everything, an
integer filter compares with `dt.weekday()`, and an unparsed string never
equals the integer weekday (Python `int != str` is true), so it rejects every
reading. -/
def dayMatches : Option DayArg → ℕ → Bool
  | none, _ => true
  | some (.num i), w => decide ((w : ℤ) = i)
  | some (.name _), _ => false

/-- The hour-window test of `query_patterns` (lines 852-858): a plain
half-open range when `hour_start <= hour_end`, and the wrap-around disjunction
`dt.hour >= hour_start or dt.hour < hour_end` otherwise. -/
def hourWindowMatch (hs he h : ℕ) : Bool :=
  if hs ≤ he then decide (hs ≤ h) && decide (h < he)
  else decide (hs ≤ h) || decide (h < he)

/-- The full per-reading filter of `query_patterns`, on the parsed
`(weekday, hour)` of a reading. -/
def queryKeep (day : Option DayArg) (hwin : Option (ℕ × ℕ)) (w h : ℕ) : Bool :=
  dayMatches day w &&
    (match hwin with
     | some (hs, he) => hourWindowMatch hs he h
     | none => true)

/-- Join strings with a separator (Python `sep.join`). -/
def joinSep (sep : String) : List String → String
  | [] => ""
  | [x] => x
  | x :: y :: xs => x ++ sep ++ joinSep sep (y :: xs)

/-- First-occurrence deduplication (insertion order of a Python dict's
keys). -/
def dedupAux : List ℕ → List ℕ → List ℕ
  | _, [] => []
  | seen, x :: xs =>
    if seen.contains x then dedupAux seen xs else x :: dedupAux (x :: seen) xs

/-- Keys of a grouping dict, in first-occurrence order. -/
def dedupFirst (l : List ℕ) : List ℕ := dedupAux [] l

/-- Result object of `query_patterns`. -/
structure QueryResult where
  filter : String
  days_analyzed : ℤ
  readings_matched : ℕ
  statistics : Option Stats
  time_in_range : Option TimeInRange
  hourly_averages : List (ℕ × ℤ)
  daily_averages : List (String × ℤ)
  unit : String
deriving DecidableEq

/-- `query_patterns`: the analyze query, then the day-of-week / hour-window
filter over parsed timestamps (`parseDW ds` embeds
`(dt.weekday(), dt.hour)` of `datetime.fromisoformat` on a string `ds`,
`none` for a caught `ValueError`/`TypeError`, which skips the reading), then
statistics and breakdowns of the matching readings.  The filter loop calls
`ds.replace` on every row, so a NULL `date_string` raises an uncaught
`AttributeError` (the guard below); the `none` branch inside `filtered` is
that guard-excluded dead case. -/
def query_patterns (mmol : Bool) (t : Thresholds) (parseDW : String → Option (ℕ × ℕ))
    (days cutoff_ms : ℤ) (day_of_week : Option DayArg)
    (hour_start hour_end : Option ℕ) (store : List StoredReading) :
    Except String QueryResult :=
  let rows := analyzeRows cutoff_ms store
  match rows with
  | [] => .error "No data found for the specified period."
  | _ :: _ =>
    if rows.any (fun r => r.date_string = none) then .error "AttributeError"
    else
    let day := day_of_week.map resolveDay
    let hwin : Option (ℕ × ℕ) :=
      match hour_start, hour_end with
      | some a, some b => some (a, b)
      | _, _ => none
    let filtered := rows.filterMap (fun r =>
      match r.date_string with
      | none => none
      | some ds =>
        match parseDW ds with
        | none => none
        | some (w, h) =>
          if queryKeep day hwin w h then some (w, h, r.sgv.getD 0) else none)
    match filtered with
    | [] => .error "No readings match the specified filters."
    | _ :: _ =>
      let values := filtered.map (fun p => p.2.2)
      let dayDesc : List String :=
        match day with
        | some (.num i) => ["day=" ++ capitalizeStr (day_names.getD i.toNat "")]
        | some (.name s) => ["day=" ++ capitalizeStr s]
        | none => []
      let hourDesc : List String :=
        match hwin with
        | some (hs, he) => ["hours=" ++ toString hs ++ ":00-" ++ toString he ++ ":00"]
        | none => []
      let filterDesc := dayDesc ++ hourDesc
      let hourly := (List.range 24).filterMap (fun h =>
        match (filtered.filter (fun p => p.2.1 = h)).map (fun p => p.2.2) with
        | [] => none
        | v :: vs => some (h, convert_glucose mmol (10 * rheDiv (v + vs.sum) (vs.length + 1))))
      let daily := (dedupFirst (filtered.map (fun p => p.1))).map (fun w =>
        let vs := (filtered.filter (fun p => p.1 = w)).map (fun p => p.2.2)
        (capitalizeStr (day_names.getD w ""),
         convert_glucose mmol (10 * rheDiv vs.sum vs.length)))
      .ok
        { filter := if filterDesc = [] then "none" else joinSep " & " filterDesc
          days_analyzed := days
          readings_matched := filtered.length
          statistics := get_stats mmol values
          time_in_range := get_time_in_range t values
          hourly_averages := hourly
          daily_averages := daily
          unit := get_unit_label mmol }

/-! ### Day view (`view_day`) -/

/-- The SQL hour filter of `view_day` and `find_worst_days`:
`CAST(strftime('%H', ...) AS INTEGER) BETWEEN hour_start AND hour_end`. -/
def viewDayHourMatch (hs he h : ℕ) : Bool := decide (hs ≤ h) && decide (h ≤ he)

/-- The WHERE clause of `view_day`: the reading's local calendar day equals
the target date, and its local hour lies in the BETWEEN window when one is
given.  `msDay` and `msHour` embed SQLite
`date/strftime(datetime(date_ms/1000, 'unixepoch', 'localtime'))`. -/
def viewDayKeep (msDay : ℤ → String) (msHour : ℤ → ℕ) (target : String)
    (hwin : Option (ℕ × ℕ)) (r : StoredReading) : Bool :=
  match r.date_ms with
  | none => false
  | some d =>
    msDay d = target &&
      (match hwin with
       | some (hs, he) => viewDayHourMatch hs he (msHour d)
       | none => true)

/-- Status classification of one reading in `view_day`. -/
def statusOf (t : Thresholds) (v : ℤ) : String :=
  if v < t.urgent_low then "very_low"
  else if v < t.target_low then "low"
  else if t.urgent_high < v then "very_high"
  else if t.target_high < v then "high"
  else "in_range"

/-- One line of the `view_day` timeline. -/
structure DayReading where
  time : String
  glucose : ℤ
  trend : String
  status : String
deriving DecidableEq

/-- The statistics block of `view_day`. -/
structure DayStats where
  average : ℤ
  min : ℤ
  max : ℤ
  time_in_range_pct : ℤ
  peak_time : String
  trough_time : String
deriving DecidableEq

/-- Result object of `view_day`. -/
structure DayResult where
  date : String
  filter : Option String
  readings_count : ℕ
  statistics : DayStats
  readings : List DayReading
  unit : String
deriving DecidableEq

/-- Maximum of a value list (Python `max`). -/
def listMax : List ℤ → ℤ
  | [] => 0
  | x :: xs => xs.foldl max x

/-- Minimum of a value list (Python `min`). -/
def listMin : List ℤ → ℤ
  | [] => 0
  | x :: xs => xs.foldl min x

/-- The uncaught exception, if any, the per-row loop of `view_day` raises on
one row: a NULL `date_string` hits `None.replace` first (`AttributeError`,
not caught by the `except (ValueError, TypeError)` around the datetime
lines), else a NULL `sgv` hits the threshold comparison (`TypeError`, outside
any try block). -/
def rowCrash (r : StoredReading) : Option String :=
  if r.date_string = none then some "AttributeError"
  else if r.sgv = none then some "TypeError"
  else none

/-- The first uncaught exception of the row loop, in row order. -/
def firstCrash : List StoredReading → Option String
  | [] => none
  | r :: rs =>
    match rowCrash r with
    | some e => some e
    | none => firstCrash rs

/-- `view_day`: select the target day's rows (note: no `sgv > 0` condition in
its query), then the timeline and statistics.  `fmtTime ds` embeds
`datetime.fromisoformat(ds.replace(...)).astimezone().strftime("%H:%M")` on a
string `ds` (`none` for a caught parse failure, displayed `"??:??"`).  A row
with a NULL `date_string` or a NULL `sgv` raises an uncaught exception
(`firstCrash`), and the function returns nothing; in the crash-free branch
every row has a string `date_string` and an integer `sgv`, so the `none`
fallbacks below are dead. -/
def view_day (mmol : Bool) (t : Thresholds) (msDay : ℤ → String) (msHour : ℤ → ℕ)
    (fmtTime : String → Option String) (target : String)
    (hour_start hour_end : Option ℕ) (store : List StoredReading) :
    Except String DayResult :=
  let hwin : Option (ℕ × ℕ) :=
    match hour_start, hour_end with
    | some a, some b => some (a, b)
    | _, _ => none
  let rows := sortByDate (store.filter (viewDayKeep msDay msHour target hwin))
  match rows with
  | [] => .error ("No readings found for " ++ target)
  | _ :: _ =>
    match firstCrash rows with
    | some e => .error e
    | none =>
      let readings := rows.map (fun r =>
        ({ time := match r.date_string with
             | some ds => (fmtTime ds).getD "??:??"
             | none => "??:??"
           glucose := convert_glucose mmol (10 * r.sgv.getD 0)
           trend := match r.direction with
             | some s => if s = "" then "Unknown" else s
             | none => "Unknown"
           status := statusOf t (r.sgv.getD 0) } : DayReading))
      let sgv_values := rows.map (fun r => r.sgv.getD 0)
      let n : ℤ := sgv_values.length
      let maxv := listMax sgv_values
      let minv := listMin sgv_values
      let peak_idx := sgv_values.findIdx (fun v => v = maxv)
      let trough_idx := sgv_values.findIdx (fun v => v = minv)
      .ok
        { date := target
          filter := match hour_start with
            | some hs => some ("hours=" ++ toString hs ++ ":00-" ++
                (match hour_end with
                 | some he => toString he
                 | none => "None") ++ ":00")
            | none => none
          readings_count := readings.length
          statistics :=
            { average := convert_glucose mmol (10 * rheDiv sgv_values.sum n)
              min := convert_glucose mmol (10 * minv)
              max := convert_glucose mmol (10 * maxv)
              time_in_range_pct := rheDiv (1000 * sgv_values.countP (inRangeB t)) n
              peak_time := (readings.getD peak_idx ⟨"", 0, "", ""⟩).time
              trough_time := (readings.getD trough_idx ⟨"", 0, "", ""⟩).time }
          readings := readings
          unit := get_unit_label mmol }

/-! ### Day ranker (`find_worst_days`) -/

/-- The WHERE clause of `find_worst_days`: `date_ms >= ?` plus the optional
BETWEEN hour window (note: no `sgv > 0` condition). -/
def worstKeep (msHour : ℤ → ℕ) (cutoff_ms : ℤ) (hwin : Option (ℕ × ℕ))
    (r : StoredReading) : Bool :=
  match r.date_ms with
  | none => false
  | some d =>
    decide (cutoff_ms ≤ d) &&
      (match hwin with
       | some (hs, he) => viewDayHourMatch hs he (msHour d)
       | none => true)

/-- One `GROUP BY day` aggregate row, before display conversion.  SQL
aggregates ignore NULL `sgv` (held in `nn`), while `COUNT(*)` counts all
rows. -/
structure DayGroup where
  day : String
  nn : List ℤ
  cnt : ℕ
deriving DecidableEq

/-- First-occurrence deduplication of strings. -/
def dedupStrAux : List String → List String → List String
  | _, [] => []
  | seen, x :: xs =>
    if seen.contains x then dedupStrAux seen xs else x :: dedupStrAux (x :: seen) xs

/-- `GROUP BY day`: one group per distinct local calendar day, in
first-occurrence order. -/
def groupByDay (msDay : ℤ → String) (rows : List StoredReading) : List DayGroup :=
  (dedupStrAux [] (rows.filterMap (fun r => r.date_ms.map msDay))).map (fun k =>
    let grp := rows.filter (fun r => r.date_ms.map msDay = some k)
    ⟨k, grp.filterMap (fun r => r.sgv), grp.length⟩)

/-- `MAX(sgv)` of a group (NULL when every `sgv` is NULL). -/
def groupPeak (g : DayGroup) : Option ℤ :=
  match g.nn with
  | [] => none
  | x :: xs => some (xs.foldl max x)

/-- Descending stable insertion by peak; SQLite sorts NULL last under
`DESC`. -/
def insertDescPeak (x : DayGroup) : List DayGroup → List DayGroup
  | [] => [x]
  | y :: ys =>
    if (match groupPeak x, groupPeak y with
        | none, none => false
        | none, some _ => true
        | some _, none => false
        | some a, some b => decide (a < b)) then y :: insertDescPeak x ys
    else x :: y :: ys

/-- `ORDER BY peak DESC`. -/
def sortDescPeak (l : List DayGroup) : List DayGroup := l.foldr insertDescPeak []

/-- One entry of the `worst_days` list; display values in tenths,
`time_in_range_pct` in tenths of a percent. -/
structure WorstDay where
  date : String
  peak : ℤ
  trough : ℤ
  average : ℤ
  readings : ℕ
  time_in_range_pct : ℤ
  high_readings : ℕ
  low_readings : ℕ
deriving DecidableEq

/-- Result object of `find_worst_days`. -/
structure WorstResult where
  days_analyzed : ℤ
  filter : Option String
  worst_days : List WorstDay
  unit : String
deriving DecidableEq

/-- `find_worst_days`: group the window's rows (zero `sgv` included — the
query has no `sgv > 0` filter) by calendar day, rank by peak descending, keep
the first `limit` groups.  A group whose `sgv` are all NULL makes Python's
`round(None)` raise `TypeError` while building its entry. -/
def find_worst_days (mmol : Bool) (t : Thresholds) (msDay : ℤ → String)
    (msHour : ℤ → ℕ) (days cutoff_ms : ℤ) (hour_start hour_end : Option ℕ)
    (limit : ℕ) (store : List StoredReading) : Except String WorstResult :=
  let hwin : Option (ℕ × ℕ) :=
    match hour_start, hour_end with
    | some a, some b => some (a, b)
    | _, _ => none
  let rows := store.filter (worstKeep msHour cutoff_ms hwin)
  let groups := sortDescPeak (groupByDay msDay rows)
  match groups with
  | [] => .error "No data found for the specified period."
  | _ :: _ =>
    let taken := groups.take limit
    if taken.any (fun g => g.nn = []) then .error "TypeError"
    else
      .ok
        { days_analyzed := days
          filter := match hour_start with
            | some hs => some ("hours=" ++ toString hs ++ ":00-" ++
                (match hour_end with
                 | some he => toString he
                 | none => "None") ++ ":00")
            | none => none
          worst_days := taken.map (fun g =>
            { date := g.day
              peak := convert_glucose mmol (10 * (groupPeak g).getD 0)
              trough := convert_glucose mmol (10 * listMin g.nn)
              average := convert_glucose mmol (10 * rheDiv g.nn.sum g.nn.length)
              readings := g.cnt
              time_in_range_pct :=
                if 0 < g.cnt then rheDiv (1000 * g.nn.countP (inRangeB t)) g.cnt else 0
              high_readings := g.nn.countP (fun v => decide (t.target_high < v))
              low_readings := g.nn.countP (fun v => decide (v < t.target_low)) })
          unit := get_unit_label mmol }

/-- Modelled from the spec: the lower median of a value list — for an even
count the lower of the two middle elements (index `(n - 1) / 2` of the sorted
sequence), for an odd count the middle element.  Declared only to compare the
spec's wording with the program's `values[n // 2]`. -/
def lowerMedianSpec (values : List ℤ) : ℤ :=
  (sortValues values).getD ((values.length - 1) / 2) 0

/-! ### Demonstration data used by concrete instances -/

/-- A store holding the value sequence `[0, 120, 0, 140, 0]` at timestamps
1..5 (zero is the invalid/missing sentinel).  The `date_string` columns hold
the empty string — a value Python's `replace`/`fromisoformat` handle with a
*caught* `ValueError` (so the analysis paths complete) and that the
`rows[0][2][:10] if rows[0][2]` date tag reads as falsy ("unknown"). -/
def zeroStore5 : List StoredReading :=
  [⟨some "a", some 0, some 1, some "", none, none, none⟩,
   ⟨some "b", some 120, some 2, some "", none, none, none⟩,
   ⟨some "c", some 0, some 3, some "", none, none, none⟩,
   ⟨some "d", some 140, some 4, some "", none, none, none⟩,
   ⟨some "e", some 0, some 5, some "", none, none, none⟩]

/-- A store holding one zero (sentinel) reading and one 120 mg/dL reading,
with empty-string `date_string`s (see `zeroStore5`). -/
def zeroStore2 : List StoredReading :=
  [⟨some "a", some 0, some 1, some "", none, none, none⟩,
   ⟨some "b", some 120, some 2, some "", none, none, none⟩]

/-- A store with a single reading, used by the hour-window instances. -/
def nightStore : List StoredReading :=
  [⟨some "a", some 100, some 1, some "x", none, none, none⟩]

/-- Uniqueness invariant of the readings table: at most one row per (non-NULL)
id — `id TEXT PRIMARY KEY` up to SQLite's tolerance of NULL keys. -/
def UniqueIds (store : List StoredReading) : Prop :=
  ∀ i : String, (store.filter (fun r => r.id = some i)).length ≤ 1

/-- The `oldest_date` loop variable after `k` further iterations of the
pagination loop from state `od`; the cursor evolution does not depend on the
store, so it can be traced separately. -/
def traceFrom (remote : Option PyNum → List Entry) (od : Option PyNum) : ℕ → Option PyNum
  | 0 => od
  | k + 1 => some (psub1 (pageMin (remote (reqOf (traceFrom remote od k)))))

/-- The loop's stop condition at step `k` of the trace from `od`: the page
fetched there is empty, or its minimum timestamp is below the cutoff. -/
def stopAt (remote : Option PyNum → List Entry) (cutoff : ℤ) (od : Option PyNum)
    (k : ℕ) : Prop :=
  remote (reqOf (traceFrom remote od k)) = [] ∨
    pltCutoff (pageMin (remote (reqOf (traceFrom remote od k)))) cutoff = true

/-- A one-entry remote history: the unfiltered request returns one "sgv"
entry at timestamp 50 whose id `storeDemo` already holds; a filtered request
returns nothing. -/
def remoteDemo : Option PyNum → List Entry
  | none => [⟨some "a", some "sgv", some 100, some 50, none, none, none, none⟩]
  | some _ => []

/-- A store already holding the reading `remoteDemo` serves. -/
def storeDemo : List StoredReading :=
  [⟨some "a", some 100, some 50, none, none, none, none⟩]

/-- An entry whose id is already present in `storeDemo`. -/
def entryDemo : Entry := ⟨some "a", some "sgv", some 100, some 50, none, none, none, none⟩

/-- A remote whose unfiltered page has minimum timestamp 1.  The loop then
sets `oldest_date = 0`, which is falsy in Python, so the next request carries
no cursor and fetches that same page again, forever. -/
def remoteEdge : Option PyNum → List Entry
  | none => [⟨some "b", some "sgv", some 90, some 1, none, none, none, none⟩]
  | some _ => []

/-- An "sgv" entry with no `date` field. -/
def entryNoDate : Entry := ⟨some "x", some "sgv", some 100, none, none, none, none, none⟩

/-- A store with a single 154 mg/dL reading (GMI boundary example), with an
empty-string `date_string` (see `zeroStore5`). -/
def gmiStore : List StoredReading :=
  [⟨some "g", some 154, some 1, some "", none, none, none⟩]

/-! ### Helper lemmas -/

/-- Membership in an insertion step. -/
theorem mem_insertByDate {x y : StoredReading} {l : List StoredReading} :
    x ∈ insertByDate y l ↔ x = y ∨ x ∈ l := by
  induction l with
  | nil => simp [insertByDate]
  | cons a as ih =>
    simp only [insertByDate]
    split
    · simp only [List.mem_cons, ih]
      tauto
    · simp only [List.mem_cons]

/-- Sorting by date neither adds nor removes rows. -/
theorem mem_sortByDate {x : StoredReading} {l : List StoredReading} :
    x ∈ sortByDate l ↔ x ∈ l := by
  induction l with
  | nil => simp [sortByDate]
  | cons a as ih =>
    show x ∈ insertByDate a (sortByDate as) ↔ _
    rw [mem_insertByDate]
    simp [ih]

/-- `rheDiv a b` is a nearest integer to the fraction `a / b`: it is off by at
most half of `b`, and exactly half only towards an even integer.  This is what
"rounded (half-to-even)" means, free of the representation. -/
theorem rheDiv_nearest (a b : ℤ) (hb : 0 < b) :
    2 * |a - rheDiv a b * b| ≤ b ∧
      (2 * |a - rheDiv a b * b| = b → rheDiv a b % 2 = 0) := by
  have hmod : b * Int.ediv a b + Int.emod a b = a := Int.ediv_add_emod a b
  have hr0 : 0 ≤ Int.emod a b := Int.emod_nonneg a (by omega)
  have hrb : Int.emod a b < b := Int.emod_lt_of_pos a hb
  have keyq : a - Int.ediv a b * b = Int.emod a b := by
    have h := hmod
    ring_nf
    ring_nf at h
    linarith
  have keyq1 : a - (Int.ediv a b + 1) * b = Int.emod a b - b := by
    have h := hmod
    ring_nf
    ring_nf at h
    linarith
  simp only [rheDiv]
  split
  case isTrue h =>
    split
    case isTrue hq =>
      rw [keyq, abs_of_nonneg hr0]
      exact ⟨by omega, fun _ => hq⟩
    case isFalse hq =>
      rw [keyq1, abs_of_nonpos (by omega)]
      exact ⟨by omega, fun _ => by omega⟩
  case isFalse h =>
    split
    case isTrue h2 =>
      rw [keyq, abs_of_nonneg hr0]
      exact ⟨by omega, fun hh => by omega⟩
    case isFalse h2 =>
      rw [keyq1, abs_of_nonpos (by omega)]
      exact ⟨by omega, fun hh => by omega⟩

/-! ### Claim theorems -/

/-- C7: `convert_glucose` passes mg/dL values through unchanged, and under a
millimolar unit setting returns the value divided by 18.0182 rounded to one
decimal place: in tenths, the half-even rounding of `10000 * v / 180182`,
which is within half a tenth of the exact quotient.  In particular 90 mg/dL
(900 tenths) converts to 5.0 mmol/L (50 tenths) and stays 90 when mmol is
disabled. -/
theorem C7_convert_glucose :
    (∀ v : ℤ, convert_glucose false v = v) ∧
    (∀ v : ℤ,
      convert_glucose true v = rheDiv (10000 * v) 180182 ∧
      2 * |10000 * v - convert_glucose true v * 180182| ≤ 180182 ∧
      (2 * |10000 * v - convert_glucose true v * 180182| = 180182 →
        convert_glucose true v % 2 = 0)) ∧
    convert_glucose true 900 = 50 ∧ convert_glucose false 900 = 900 := by
  refine ⟨fun v => rfl, fun v => ⟨rfl, ?_, ?_⟩, by decide, rfl⟩
  · exact (rheDiv_nearest (10000 * v) 180182 (by omega)).1
  · exact (rheDiv_nearest (10000 * v) 180182 (by omega)).2

/-- C7 witness: the theorem applied at the concrete inputs 900 tenths
(90 mg/dL) and 17 tenths. -/
theorem C7_convert_glucose_witness :
    convert_glucose true 900 = 50 ∧ convert_glucose false 17 = 17 ∧
    2 * |10000 * 900 - convert_glucose true 900 * 180182| ≤ 180182 :=
  ⟨C7_convert_glucose.2.2.1, C7_convert_glucose.1 17,
    (C7_convert_glucose.2.1 900).2.1⟩

/-- C9: when the one-time settings fetch fails in any way, the cached
settings are the empty object, `get_thresholds` returns the documented
defaults 55 / 70 / 180 / 250, and the unit accessors report mg/dL. -/
theorem C9_settings_fallback :
    get_nightscout_settings none = emptySettings ∧
    get_thresholds none = ⟨55, 70, 180, 250⟩ ∧
    use_mmol none = false ∧
    get_unit_label (use_mmol none) = "mg/dL" := by
  exact ⟨rfl, by decide, by decide, by decide⟩

/-- C5 counterexample: on the four values `[1, 2, 3, 4]` (even count, mg/dL
display) `get_stats` reports the median 3 (30 tenths), the element at index
`4 // 2 = 2` of the sorted sequence, while the lower median is 2 (20
tenths): the reported median is the upper median, not the lower one the claim
names. -/
theorem C5_counterexample :
    (get_stats false [1, 2, 3, 4]).map Stats.median = some 30 ∧
    lowerMedianSpec [1, 2, 3, 4] = 2 ∧
    (get_stats false [1, 2, 3, 4]).map Stats.median ≠
      some (10 * lowerMedianSpec [1, 2, 3, 4]) := by decide

/-- C5 (amended): the median `get_stats` reports is the element at index
`n // 2` of the sorted sequence — the middle element for odd counts, the
*upper* median for even counts — fed through `convert_glucose`. -/
theorem C5_median_index :
    ∀ (mmol : Bool) (values : List ℤ) (s : Stats),
      get_stats mmol values = some s →
      s.median = convert_glucose mmol (10 * (sortValues values).getD (values.length / 2) 0) ∧
      (values.length % 2 = 1 →
        s.median =
          convert_glucose mmol (10 * (sortValues values).getD ((values.length - 1) / 2) 0)) := by
  intro mmol values s h
  cases values with
  | nil => simp [get_stats] at h
  | cons v vs =>
    simp only [get_stats, Option.some.injEq] at h
    subst h
    refine ⟨rfl, fun hodd => ?_⟩
    have hh : (v :: vs).length / 2 = ((v :: vs).length - 1) / 2 := by omega
    rw [show Stats.median _ =
        convert_glucose mmol (10 * (sortValues (v :: vs)).getD ((v :: vs).length / 2) 0) from rfl,
      hh]

/-- C5 witness: the amended theorem applied to `[10, 30, 20]`. -/
theorem C5_median_index_witness :
    Stats.median ⟨3, 200, 82, 100, 300, 200, "mg/dL"⟩ =
      convert_glucose false (10 * (sortValues [10, 30, 20]).getD ([10, 30, 20].length / 2) 0) :=
  (C5_median_index false [10, 30, 20] ⟨3, 200, 82, 100, 300, 200, "mg/dL"⟩ (by decide)).1

/-- Each value lies in exactly one of the five threshold bands, as soon as
the four boundaries ascend. -/
theorem band_sum_one (t : Thresholds) (h1 : t.urgent_low < t.target_low)
    (h2 : t.target_low < t.target_high) (h3 : t.target_high < t.urgent_high) (v : ℤ) :
    ((if veryLowB t v = true then (1 : ℕ) else 0) + (if lowB t v = true then 1 else 0) +
      (if inRangeB t v = true then 1 else 0) + (if highB t v = true then 1 else 0) +
      (if veryHighB t v = true then 1 else 0)) = 1 := by
  simp only [veryLowB, lowB, inRangeB, highB, veryHighB, Bool.and_eq_true, decide_eq_true_eq]
  split_ifs <;> omega

/-- The five band counts partition the value list. -/
theorem countP_bands (t : Thresholds) (h1 : t.urgent_low < t.target_low)
    (h2 : t.target_low < t.target_high) (h3 : t.target_high < t.urgent_high)
    (values : List ℤ) :
    values.countP (veryLowB t) + values.countP (lowB t) + values.countP (inRangeB t) +
      values.countP (highB t) + values.countP (veryHighB t) = values.length := by
  induction values with
  | nil => rfl
  | cons v vs ih =>
    have hb := band_sum_one t h1 h2 h3 v
    simp only [List.countP_cons, List.length_cons]
    omega

/-- C2: for ascending thresholds and a non-empty value list,
`get_time_in_range` classifies each value into exactly one of the five bands
(with the stated boundary conditions), the band counts partition the list,
each reported share is `count / n * 100` rounded to one decimal (in tenths of
a percent, within half a tenth of the exact share), and with thresholds
(55, 70, 180, 250) the values 70 and 180 are in range, 181 is high, 54 is
very low. -/
theorem C2_time_in_range_bands :
    ∀ (t : Thresholds) (values : List ℤ),
      t.urgent_low < t.target_low → t.target_low < t.target_high →
      t.target_high < t.urgent_high → values ≠ [] →
      (∀ v : ℤ,
        (veryLowB t v = true ↔ v < t.urgent_low) ∧
        (lowB t v = true ↔ t.urgent_low ≤ v ∧ v < t.target_low) ∧
        (inRangeB t v = true ↔ t.target_low ≤ v ∧ v ≤ t.target_high) ∧
        (highB t v = true ↔ t.target_high < v ∧ v ≤ t.urgent_high) ∧
        (veryHighB t v = true ↔ t.urgent_high < v) ∧
        ((if veryLowB t v = true then (1 : ℕ) else 0) + (if lowB t v = true then 1 else 0) +
          (if inRangeB t v = true then 1 else 0) + (if highB t v = true then 1 else 0) +
          (if veryHighB t v = true then 1 else 0)) = 1) ∧
      values.countP (veryLowB t) + values.countP (lowB t) + values.countP (inRangeB t) +
        values.countP (highB t) + values.countP (veryHighB t) = values.length ∧
      get_time_in_range t values = some
        { very_low_pct := rheDiv (1000 * values.countP (veryLowB t)) values.length
          low_pct := rheDiv (1000 * values.countP (lowB t)) values.length
          in_range_pct := rheDiv (1000 * values.countP (inRangeB t)) values.length
          high_pct := rheDiv (1000 * values.countP (highB t)) values.length
          very_high_pct := rheDiv (1000 * values.countP (veryHighB t)) values.length } ∧
      (∀ c : ℤ,
        2 * |1000 * c - rheDiv (1000 * c) values.length * values.length| ≤ values.length) ∧
      (inRangeB ⟨55, 70, 180, 250⟩ 70 = true ∧ inRangeB ⟨55, 70, 180, 250⟩ 180 = true ∧
        highB ⟨55, 70, 180, 250⟩ 181 = true ∧ veryLowB ⟨55, 70, 180, 250⟩ 54 = true) := by
  intro t values h1 h2 h3 hne
  have hn : (0 : ℤ) < values.length := by
    cases values with
    | nil => exact absurd rfl hne
    | cons v vs => simp only [List.length_cons]; push_cast; omega
  refine ⟨fun v => ?_, countP_bands t h1 h2 h3 values, ?_, ?_, by decide⟩
  · refine ⟨?_, ?_, ?_, ?_, ?_, band_sum_one t h1 h2 h3 v⟩ <;>
      simp [veryLowB, lowB, inRangeB, highB, veryHighB, decide_eq_true_eq]
  · cases values with
    | nil => exact absurd rfl hne
    | cons v vs => rfl
  · intro c
    exact (rheDiv_nearest _ _ hn).1

/-- C3 counterexample: on a store holding one zero (sentinel) reading and one
120 mg/dL reading of the same day, `find_worst_days` reports 2 readings with
trough 0 and counts the zero as a low reading, and `view_day` reports 2
readings with minimum 0 — had they operated only on non-zero readings, both
would report 1 reading and 120 as trough/minimum.  Their SQL queries have no
`sgv > 0` condition. -/
theorem C3_counterexample :
    ((find_worst_days false ⟨55, 70, 180, 250⟩ (fun _ => "2026-01-01") (fun _ => 12)
        21 0 none none 5 zeroStore2).map
      (fun r => r.worst_days.map (fun d => (d.readings, d.trough, d.low_readings)))) =
      .ok [(2, 0, 1)] ∧
    ((view_day false ⟨55, 70, 180, 250⟩ (fun _ => "2026-01-01") (fun _ => 12)
        (fun _ => none) "2026-01-01" none none zeroStore2).map
      (fun r => (r.readings_count, r.statistics.min))) = .ok (2, 0) := by decide

/-- C3 (amended): `analyze_cgm` excludes zero readings — every analyzed value
is positive, its reading count and statistics are those of the positive
values of the window, and the stored sequence `[0, 120, 0, 140, 0]` yields
`readings == 2` with statistics computed from `[120, 140]` — but
`find_worst_days` and `view_day` do not filter zero readings (see the
counterexample). -/
theorem C3_zero_filtering :
    (∀ (cutoff : ℤ) (store : List StoredReading) (v : ℤ),
        v ∈ analyzeValues cutoff store → 0 < v) ∧
    (∀ (mmol : Bool) (t : Thresholds) (ph : String → Option ℕ) (days cutoff : ℤ)
        (store : List StoredReading) (res : AnalyzeResult),
        analyze_cgm mmol t ph days cutoff store = .ok res →
        res.readings = (analyzeValues cutoff store).length ∧
        res.statistics = get_stats mmol (analyzeValues cutoff store)) ∧
    ((analyze_cgm false ⟨55, 70, 180, 250⟩ (fun _ => none) 1 0 zeroStore5).map
        (fun r => (r.readings, r.statistics))) = .ok (2, get_stats false [120, 140]) := by
  refine ⟨?_, ?_, by decide⟩
  · intro cutoff store v hv
    simp only [analyzeValues, List.mem_map] at hv
    obtain ⟨r, hr, rfl⟩ := hv
    simp only [analyzeRows] at hr
    rw [mem_sortByDate] at hr
    obtain ⟨-, hkeep⟩ := List.mem_filter.mp hr
    rcases hdm : r.date_ms with - | d <;> rcases hsv : r.sgv with - | s <;>
        simp only [analyzeKeep, hdm, hsv, Bool.and_eq_true, decide_eq_true_eq] at hkeep <;>
      first
        | exact absurd hkeep (by decide)
        | simpa using hkeep.2
  · intro mmol t ph days cutoff store res h
    simp only [analyze_cgm] at h
    cases hrows : analyzeRows cutoff store with
    | nil => rw [hrows] at h; exact absurd h (by simp)
    | cons r0 rs =>
      rw [hrows] at h
      simp only [Except.ok.injEq] at h
      by_cases hnull : ((r0 :: rs).any fun r => decide (r.date_string = none)) = true
      · rw [if_pos hnull] at h
        exact absurd h (by simp)
      · rw [if_neg hnull] at h
        simp only [Except.ok.injEq] at h
        subst h
        constructor
        · show ((r0 :: rs).map fun r => r.sgv.getD 0).length = (analyzeValues cutoff store).length
          rw [analyzeValues, hrows]
        · show get_stats mmol ((r0 :: rs).map fun r => r.sgv.getD 0) =
            get_stats mmol (analyzeValues cutoff store)
          rw [analyzeValues, hrows]

/-- C3 witness: the amended theorem applied to the `[0, 120, 0, 140, 0]`
store. -/
theorem C3_zero_filtering_witness :
    (0 : ℤ) < 120 ∧
    AnalyzeResult.readings
        ⟨"unknown", "unknown", 1, 2, some ⟨2, 1300, 100, 1200, 1400, 1400, "mg/dL"⟩,
          some ⟨0, 0, 1000, 0, 0⟩, 64, 77, "stable", [], "mg/dL"⟩ =
      (analyzeValues 0 zeroStore5).length :=
  ⟨C3_zero_filtering.1 0 zeroStore5 120 (by decide),
   (C3_zero_filtering.2.1 false ⟨55, 70, 180, 250⟩ (fun _ => none) 1 0 zeroStore5
      ⟨"unknown", "unknown", 1, 2, some ⟨2, 1300, 100, 1200, 1400, 1400, "mg/dL"⟩,
        some ⟨0, 0, 1000, 0, 0⟩, 64, 77, "stable", [], "mg/dL"⟩ (by decide)).1⟩

/-- C2 witness: the theorem applied with thresholds (55, 70, 180, 250) to the
boundary values `[54, 70, 180, 181, 300]`: shares 20%, 0%, 40%, 20%, 20% and
counts 1 + 0 + 2 + 1 + 1 = 5. -/
theorem C2_time_in_range_bands_witness :
    get_time_in_range ⟨55, 70, 180, 250⟩ [54, 70, 180, 181, 300] =
      some ⟨200, 0, 400, 200, 200⟩ ∧
    [54, 70, 180, 181, 300].countP (veryLowB ⟨55, 70, 180, 250⟩) +
      [54, 70, 180, 181, 300].countP (lowB ⟨55, 70, 180, 250⟩) +
      [54, 70, 180, 181, 300].countP (inRangeB ⟨55, 70, 180, 250⟩) +
      [54, 70, 180, 181, 300].countP (highB ⟨55, 70, 180, 250⟩) +
      [54, 70, 180, 181, 300].countP (veryHighB ⟨55, 70, 180, 250⟩) =
      [54, 70, 180, 181, 300].length := by
  have h := C2_time_in_range_bands ⟨55, 70, 180, 250⟩ [54, 70, 180, 181, 300]
    (by decide) (by decide) (by decide) (by decide)
  refine ⟨?_, h.2.1⟩
  rw [h.2.2.1]
  decide

/-- C6 counterexample: the inverted hour window 22→6 matches hour 23 under
the wrap-around test of `query_patterns`, but the BETWEEN test `view_day`
uses matches no hour at all, so `view_day` over a store whose only reading is
at 23:00 of the target day returns the no-readings error: for `view_day` the
inverted window IS an empty range, contradicting the claim. -/
theorem C6_counterexample :
    hourWindowMatch 22 6 23 = true ∧
    viewDayHourMatch 22 6 23 = false ∧
    (List.range 24).filter (fun h => viewDayHourMatch 22 6 h) = [] ∧
    view_day false ⟨55, 70, 180, 250⟩ (fun _ => "2026-01-01") (fun _ => 23)
      (fun _ => none) "2026-01-01" (some 22) (some 6) nightStore =
      .error "No readings found for 2026-01-01" := by decide

/-- C6 (amended): `query_patterns` treats an inverted hour window (start >
end) as wrap-around — a reading matches iff its hour ≥ start or its hour <
end — and never as an empty range; but `view_day` (and `find_worst_days`)
use the SQL test `hour BETWEEN start AND end`, which matches no hour when
start > end. -/
theorem C6_hour_window :
    (∀ hs he h : ℕ, he < hs →
        hourWindowMatch hs he h = (decide (hs ≤ h) || decide (h < he))) ∧
    (∀ hs he h : ℕ, he < hs → viewDayHourMatch hs he h = false) ∧
    ((query_patterns false ⟨55, 70, 180, 250⟩
        (fun ds => if ds = "x" then some (2, 23) else none)
        90 0 none (some 22) (some 6) nightStore).map
      (fun r => r.readings_matched)) = .ok 1 := by
  refine ⟨?_, ?_, by decide⟩
  · intro hs he h hlt
    unfold hourWindowMatch
    rw [if_neg (by omega)]
  · intro hs he h hlt
    unfold viewDayHourMatch
    by_cases hcase : hs ≤ h
    · have hno : ¬(h ≤ he) := by omega
      simp [hcase, hno]
    · simp [hcase]

/-- C6 witness: the amended theorem applied to the window 22→6 at hour 23. -/
theorem C6_hour_window_witness :
    hourWindowMatch 22 6 23 = (decide (22 ≤ 23) || decide (23 < 6)) ∧
    viewDayHourMatch 22 6 23 = false :=
  ⟨C6_hour_window.1 22 6 23 (by decide), C6_hour_window.2.1 22 6 23 (by decide)⟩

/-- Upserting an entry whose id the store already holds changes nothing. -/
theorem upsertEntry_noop {store : List StoredReading} {total : ℕ} {e : Entry}
    (h : containsId store e._id = true) : upsertEntry (store, total) e = (store, total) := by
  simp [upsertEntry, h]

/-- A page whose "sgv" entries are all already stored is processed without
effect. -/
theorem processPage_noop : ∀ (page : List Entry) (store : List StoredReading) (total : ℕ),
    (∀ e ∈ page, e.type = some "sgv" → containsId store e._id = true) →
    processPage store total page = (store, total) := by
  intro page
  induction page with
  | nil => intro store total _; rfl
  | cons e es ih =>
    intro store total h
    show List.foldl upsertEntry (upsertEntry (store, total) e) es = (store, total)
    have he : upsertEntry (store, total) e = (store, total) := by
      by_cases ht : e.type = some "sgv"
      · exact upsertEntry_noop (h e (List.mem_cons_self e es) ht)
      · simp [upsertEntry, ht]
    rw [he]
    exact ih store total (fun x hx => h x (List.mem_cons_of_mem e hx))

/-- The whole loop is without effect when every "sgv" entry the remote can
serve is already stored. -/
theorem fetchLoop_noop : ∀ (remote : Option PyNum → List Entry) (cutoff : ℤ)
    (store : List StoredReading),
    (∀ (req : Option PyNum) (e : Entry), e ∈ remote req →
        e.type = some "sgv" → containsId store e._id = true) →
    ∀ (fuel : ℕ) (od : Option PyNum) (total : ℕ) (out : List StoredReading × ℕ),
      fetchLoop remote cutoff fuel od store total = some out → out = (store, total) := by
  intro remote cutoff store hyp fuel
  induction fuel with
  | zero => intro od total out h; exact absurd h (by simp [fetchLoop])
  | succ fuel ih =>
    intro od total out h
    simp only [fetchLoop] at h
    by_cases hemp : remote (reqOf od) = []
    · rw [if_pos hemp] at h
      exact (Option.some.inj h).symm
    · rw [if_neg hemp] at h
      have hpp : processPage store total (remote (reqOf od)) = (store, total) :=
        processPage_noop _ store total (fun e he => hyp (reqOf od) e he)
      rw [hpp] at h
      by_cases hcut : pltCutoff (pageMin (remote (reqOf od))) cutoff = true
      · rw [if_pos hcut] at h
        exact (Option.some.inj h).symm
      · rw [if_neg hcut] at h
        exact ih _ _ _ h

/-- One upsert preserves the at-most-one-row-per-id invariant. -/
theorem upsertEntry_unique {store : List StoredReading} {total : ℕ} {e : Entry}
    (h : UniqueIds store) : UniqueIds (upsertEntry (store, total) e).1 := by
  by_cases ht : e.type = some "sgv"
  · by_cases hc : containsId store e._id = true
    · have heq : (upsertEntry (store, total) e).1 = store := by simp [upsertEntry, ht, hc]
      rw [heq]; exact h
    · have heq : (upsertEntry (store, total) e).1 = store ++ [rowOfEntry e] := by
        simp [upsertEntry, ht, hc]
      rw [heq]
      intro j
      rw [List.filter_append, List.length_append]
      by_cases hej : e._id = some j
      · have hstore : (store.filter (fun r => r.id = some j)).length = 0 := by
          rw [List.length_eq_zero, List.filter_eq_nil_iff]
          intro a ha hpa
          rw [hej] at hc
          exact hc (List.any_eq_true.mpr ⟨a, ha, hpa⟩)
        have hrow : ([rowOfEntry e].filter (fun r => r.id = some j)).length ≤ 1 := by
          rw [List.filter_cons]
          split <;> simp
        omega
      · have hrow : ([rowOfEntry e].filter (fun r => r.id = some j)).length = 0 := by
          simp [rowOfEntry, hej]
        have hj := h j
        omega
  · have heq : (upsertEntry (store, total) e).1 = store := by simp [upsertEntry, ht]
    rw [heq]; exact h

/-- Processing one page preserves the invariant. -/
theorem processPage_unique : ∀ (page : List Entry) (store : List StoredReading) (total : ℕ),
    UniqueIds store → UniqueIds (processPage store total page).1 := by
  intro page
  induction page with
  | nil => intro store total h; exact h
  | cons e es ih =>
    intro store total h
    exact ih (upsertEntry (store, total) e).1 (upsertEntry (store, total) e).2
      (upsertEntry_unique h)

/-- The loop preserves the invariant. -/
theorem fetchLoop_unique : ∀ (remote : Option PyNum → List Entry) (cutoff : ℤ) (fuel : ℕ)
    (od : Option PyNum) (store s : List StoredReading) (total n : ℕ),
    UniqueIds store → fetchLoop remote cutoff fuel od store total = some (s, n) →
    UniqueIds s := by
  intro remote cutoff fuel
  induction fuel with
  | zero => intro od store s total n _ h; exact absurd h (by simp [fetchLoop])
  | succ fuel ih =>
    intro od store s total n hU h
    simp only [fetchLoop] at h
    by_cases hemp : remote (reqOf od) = []
    · rw [if_pos hemp] at h
      simp only [Option.some.injEq, Prod.mk.injEq] at h
      obtain ⟨rfl, -⟩ := h
      exact hU
    · rw [if_neg hemp] at h
      have hpp := processPage_unique (remote (reqOf od)) store total hU
      by_cases hcut : pltCutoff (pageMin (remote (reqOf od))) cutoff = true
      · rw [if_pos hcut] at h
        have hsn := Option.some.inj h
        rw [hsn] at hpp
        exact hpp
      · rw [if_neg hcut] at h
        exact ih _ _ _ _ _ hpp h

/-- The singleton demonstration store satisfies the invariant. -/
theorem storeDemo_unique : UniqueIds storeDemo := by
  intro j
  show (List.filter _ [(⟨some "a", some 100, some 50, none, none, none, none⟩ :
      StoredReading)]).length ≤ 1
  rw [List.filter_cons]
  split <;> simp

/-- Every "sgv" entry `remoteDemo` can serve is already in `storeDemo`. -/
theorem remoteDemo_contained : ∀ (req : Option PyNum) (e : Entry), e ∈ remoteDemo req →
    e.type = some "sgv" → containsId storeDemo e._id = true := by
  intro req e he _
  cases req with
  | none =>
    simp only [remoteDemo, List.mem_singleton] at he
    subst he
    decide
  | some p => simp [remoteDemo] at he

/-- C1: the store keeps at most one record per reading id — upserting an
entry whose `_id` is already present leaves the store unchanged, the loop
preserves the at-most-one-row-per-id invariant, and a full sync over a remote
history whose "sgv" entries are all already stored returns `new_count == 0`
with the stored records exactly as before. -/
theorem C1_dedup_idempotent :
    (∀ (store : List StoredReading) (total : ℕ) (e : Entry),
        containsId store e._id = true → upsertEntry (store, total) e = (store, total)) ∧
    (∀ (remote : Option PyNum → List Entry) (cutoff : ℤ) (fuel : ℕ) (od : Option PyNum)
        (store s : List StoredReading) (total n : ℕ),
        UniqueIds store → fetchLoop remote cutoff fuel od store total = some (s, n) →
        UniqueIds s) ∧
    (∀ (remote : Option PyNum → List Entry) (cutoff : ℤ) (fuel : ℕ)
        (store : List StoredReading) (out : List StoredReading × ℕ × ℕ),
        (∀ (req : Option PyNum) (e : Entry), e ∈ remote req →
            e.type = some "sgv" → containsId store e._id = true) →
        fetch_and_store remote cutoff fuel store = some out →
        out = (store, 0, store.length)) := by
  refine ⟨fun store total e h => upsertEntry_noop h, fetchLoop_unique, ?_⟩
  intro remote cutoff fuel store out hyp h
  unfold fetch_and_store at h
  cases hloop : fetchLoop remote cutoff fuel none store 0 with
  | none => rw [hloop] at h; exact absurd h (by simp)
  | some p =>
    rw [hloop] at h
    have hp := fetchLoop_noop remote cutoff store hyp fuel none 0 p hloop
    subst hp
    simp only [Option.some.injEq] at h
    exact h.symm

/-- C1 witness: the theorem applied to `storeDemo`, `entryDemo` and a run of
`remoteDemo` — the rerun inserts nothing and leaves the store as it was. -/
theorem C1_dedup_idempotent_witness :
    upsertEntry (storeDemo, 0) entryDemo = (storeDemo, 0) ∧
    UniqueIds storeDemo ∧
    ((storeDemo, 0, 1) : List StoredReading × ℕ × ℕ) = (storeDemo, 0, storeDemo.length) :=
  ⟨C1_dedup_idempotent.1 storeDemo 0 entryDemo (by decide),
   C1_dedup_idempotent.2.1 remoteDemo 40 10 none storeDemo storeDemo 0 0
     storeDemo_unique (by decide),
   C1_dedup_idempotent.2.2 remoteDemo 40 10 storeDemo (storeDemo, 0, 1)
     remoteDemo_contained (by decide)⟩

/-- C4 counterexample: over `remoteEdge` (one page, minimum timestamp 1) with
cutoff 0, the claim's algorithm would send `find[date][$lte] = 0` next and
receive the empty page, stopping; the code instead finds `oldest_date = 0`
falsy, sends NO cursor, fetches the same page forever — the loop never
returns (fuel 30 exhausted). -/
theorem C4_counterexample :
    reqOf (some (psub1 (PyNum.fin 1))) = none ∧
    remoteEdge (some (PyNum.fin 0)) = [] ∧
    fetchLoop remoteEdge 0 30 none [] 0 = none := by decide

/-- C4 (amended): the sync pages backward — the first request carries no
cursor; an empty page stops the loop; a page whose minimum timestamp is below
the cutoff stops it after processing that page; otherwise the loop continues
from state `min - 1` and the next request carries that cursor — except that a
cursor equal to 0 (and the initial `None`) is falsy in Python, so such a
request carries no date filter at all.  Fetch failures abort the sync outside
this loop; no other stopping condition exists. -/
theorem C4_pagination :
    (∀ (remote : Option PyNum → List Entry) (cutoff : ℤ) (fuel : ℕ)
        (store : List StoredReading),
        fetch_and_store remote cutoff fuel store =
          (fetchLoop remote cutoff fuel none store 0).map
            (fun p => (p.1, p.2, p.1.length))) ∧
    (∀ (remote : Option PyNum → List Entry) (cutoff : ℤ) (fuel : ℕ) (od : Option PyNum)
        (store : List StoredReading) (total : ℕ),
        remote (reqOf od) = [] →
        fetchLoop remote cutoff (fuel + 1) od store total = some (store, total)) ∧
    (∀ (remote : Option PyNum → List Entry) (cutoff : ℤ) (fuel : ℕ) (od : Option PyNum)
        (store : List StoredReading) (total : ℕ),
        remote (reqOf od) ≠ [] →
        pltCutoff (pageMin (remote (reqOf od))) cutoff = true →
        fetchLoop remote cutoff (fuel + 1) od store total =
          some (processPage store total (remote (reqOf od)))) ∧
    (∀ (remote : Option PyNum → List Entry) (cutoff : ℤ) (fuel : ℕ) (od : Option PyNum)
        (store : List StoredReading) (total : ℕ),
        remote (reqOf od) ≠ [] →
        pltCutoff (pageMin (remote (reqOf od))) cutoff = false →
        fetchLoop remote cutoff (fuel + 1) od store total =
          fetchLoop remote cutoff fuel (some (psub1 (pageMin (remote (reqOf od)))))
            (processPage store total (remote (reqOf od))).1
            (processPage store total (remote (reqOf od))).2) ∧
    (∀ d : ℤ, d ≠ 0 → reqOf (some (.fin d)) = some (.fin d)) ∧
    reqOf (some (.fin 0)) = none ∧
    reqOf none = none ∧
    reqOf (some .inf) = some .inf := by
  refine ⟨?_, ?_, ?_, ?_, ?_, rfl, rfl, rfl⟩
  · intro remote cutoff fuel store
    unfold fetch_and_store
    cases h : fetchLoop remote cutoff fuel none store 0 with
    | none => rfl
    | some p => obtain ⟨st, n⟩ := p; rfl
  · intro remote cutoff fuel od store total h
    simp only [fetchLoop]
    rw [if_pos h]
  · intro remote cutoff fuel od store total h1 h2
    simp only [fetchLoop]
    rw [if_neg h1, if_pos h2]
  · intro remote cutoff fuel od store total h1 h2
    simp only [fetchLoop]
    rw [if_neg h1, if_neg (by simp [h2])]
  · intro d hd
    simp [reqOf, truthy, hd]

/-- C4 witness: the empty-page stop applied to an empty remote, and the
truthy-cursor fact at 5. -/
theorem C4_pagination_witness :
    fetchLoop (fun _ => ([] : List Entry)) 0 1 none [] 0 = some ([], 0) ∧
    reqOf (some (PyNum.fin 5)) = some (PyNum.fin 5) :=
  ⟨C4_pagination.2.1 (fun _ => []) 0 0 none [] 0 rfl,
   C4_pagination.2.2.2.2.1 5 (by decide)⟩

/-- One trace step from the start equals the trace from the successor
state. -/
theorem traceFrom_succ (remote : Option PyNum → List Entry) (od : Option PyNum) (k : ℕ) :
    traceFrom remote od (k + 1) =
      traceFrom remote (some (psub1 (pageMin (remote (reqOf od))))) k := by
  induction k with
  | zero => rfl
  | succ k ih =>
    show some (psub1 (pageMin (remote (reqOf (traceFrom remote od (k + 1)))))) = _
    rw [ih]
    rfl

/-- If the stop condition holds somewhere within the fuel, the loop
returns. -/
theorem fetchLoop_terminates : ∀ (remote : Option PyNum → List Entry) (cutoff : ℤ)
    (fuel : ℕ) (od : Option PyNum) (store : List StoredReading) (total : ℕ),
    (∃ k, k < fuel ∧ stopAt remote cutoff od k) →
    (fetchLoop remote cutoff fuel od store total).isSome = true := by
  intro remote cutoff fuel
  induction fuel with
  | zero =>
    intro od store total h
    obtain ⟨k, hk, -⟩ := h
    omega
  | succ fuel ih =>
    intro od store total h
    obtain ⟨k, hk, hstop⟩ := h
    simp only [fetchLoop]
    by_cases hemp : remote (reqOf od) = []
    · rw [if_pos hemp]; rfl
    · rw [if_neg hemp]
      by_cases hcut : pltCutoff (pageMin (remote (reqOf od))) cutoff = true
      · rw [if_pos hcut]; rfl
      · rw [if_neg hcut]
        cases k with
        | zero => exact absurd hstop (by simp [stopAt, traceFrom, hemp, hcut])
        | succ k =>
          apply ih
          refine ⟨k, by omega, ?_⟩
          unfold stopAt at hstop ⊢
          rw [traceFrom_succ] at hstop
          exact hstop

/-- A page of entries that all lack `date` has an infinite minimum. -/
theorem pageMin_dateless : ∀ (page : List Entry), (∀ e ∈ page, e.date = none) →
    pageMin page = .inf := by
  intro page
  induction page with
  | nil => intro _; rfl
  | cons e es ih =>
    intro h
    show pmin (match e.date with | some d => .fin d | none => .inf) (pageMin es) = .inf
    rw [h e (List.mem_cons_self e es), ih (fun x hx => h x (List.mem_cons_of_mem e hx))]
    rfl

/-- Against a remote that always serves a non-empty page of dateless entries,
the loop never returns, whatever the fuel. -/
theorem fetchLoop_dateless : ∀ (remote : Option PyNum → List Entry) (cutoff : ℤ),
    (∀ req, remote req ≠ [] ∧ ∀ e ∈ remote req, e.date = none) →
    ∀ (fuel : ℕ) (od : Option PyNum) (store : List StoredReading) (total : ℕ),
      fetchLoop remote cutoff fuel od store total = none := by
  intro remote cutoff hyp fuel
  induction fuel with
  | zero => intro od store total; rfl
  | succ fuel ih =>
    intro od store total
    simp only [fetchLoop]
    rw [if_neg (hyp (reqOf od)).1, pageMin_dateless _ (hyp (reqOf od)).2,
      if_neg (by simp [pltCutoff])]
    exact ih _ _ _

/-- C10: the pagination loop returns as soon as some step of its cursor trace
sees an empty page or a minimum timestamp below the cutoff (so a fuel larger
than that step suffices); an entry missing `date` contributes infinity to the
page minimum, infinity is never below the cutoff and does not decrease under
the cursor step, so against a remote always serving non-empty all-dateless
pages the loop never returns — the precondition is necessary. -/
theorem C10_pagination_termination :
    (∀ (remote : Option PyNum → List Entry) (cutoff : ℤ) (fuel : ℕ) (od : Option PyNum)
        (store : List StoredReading) (total : ℕ),
        (∃ k, k < fuel ∧ stopAt remote cutoff od k) →
        (fetchLoop remote cutoff fuel od store total).isSome = true) ∧
    (∀ cutoff : ℤ, pltCutoff .inf cutoff = false) ∧
    psub1 .inf = .inf ∧
    (∀ page : List Entry, page ≠ [] → (∀ e ∈ page, e.date = none) →
        pageMin page = .inf) ∧
    (∀ (remote : Option PyNum → List Entry) (cutoff : ℤ),
        (∀ req, remote req ≠ [] ∧ ∀ e ∈ remote req, e.date = none) →
        ∀ (fuel : ℕ) (od : Option PyNum) (store : List StoredReading) (total : ℕ),
          fetchLoop remote cutoff fuel od store total = none) :=
  ⟨fetchLoop_terminates, fun _ => rfl, rfl, fun page _ h => pageMin_dateless page h,
   fetchLoop_dateless⟩

/-- C8: the GMI `analyze_cgm` reports is `3.31 + 0.02392 * raw_mean` rounded
to one decimal (in tenths: the half-even rounding of
`(331000 * n + 2392 * s) / (10000 * n)`, within half a tenth of the exact
value), computed from the raw mg/dL values of the window whatever the display
unit; a raw mean of 154 mg/dL yields GMI 7.0 (70 tenths). -/
theorem C8_gmi :
    (∀ (mmol : Bool) (t : Thresholds) (ph : String → Option ℕ) (days cutoff : ℤ)
        (store : List StoredReading) (res : AnalyzeResult),
        analyze_cgm mmol t ph days cutoff store = .ok res →
        res.gmi_estimated_a1c =
          gmiTenths (analyzeValues cutoff store).sum (analyzeValues cutoff store).length ∧
        2 * |331000 * ((analyzeValues cutoff store).length : ℤ) +
              2392 * (analyzeValues cutoff store).sum -
              res.gmi_estimated_a1c * (10000 * (analyzeValues cutoff store).length)| ≤
          10000 * (analyzeValues cutoff store).length) ∧
    gmiTenths 154 1 = 70 := by
  refine ⟨?_, by decide⟩
  intro mmol t ph days cutoff store res h
  simp only [analyze_cgm] at h
  cases hrows : analyzeRows cutoff store with
  | nil => rw [hrows] at h; exact absurd h (by simp)
  | cons r0 rs =>
    rw [hrows] at h
    simp only [Except.ok.injEq] at h
    by_cases hnull : ((r0 :: rs).any fun r => decide (r.date_string = none)) = true
    · rw [if_pos hnull] at h
      exact absurd h (by simp)
    · rw [if_neg hnull] at h
      simp only [Except.ok.injEq] at h
      subst h
      have hvals : analyzeValues cutoff store = (r0 :: rs).map (fun r => r.sgv.getD 0) := by
        rw [analyzeValues, hrows]
      have hpos : (0 : ℤ) < 10000 * (((r0 :: rs).map (fun r => r.sgv.getD 0)).length : ℤ) := by
        simp only [List.length_map, List.length_cons]
        push_cast
        omega
      constructor
      · rw [hvals]
      · rw [hvals]
        exact (rheDiv_nearest
          (331000 * (((r0 :: rs).map (fun r => r.sgv.getD 0)).length : ℤ) +
            2392 * ((r0 :: rs).map (fun r => r.sgv.getD 0)).sum)
          (10000 * (((r0 :: rs).map (fun r => r.sgv.getD 0)).length : ℤ)) hpos).1

/-- C8 witness: the theorem applied to a one-reading store with raw mean 154
mg/dL. -/
theorem C8_gmi_witness :
    AnalyzeResult.gmi_estimated_a1c
        ⟨"unknown", "unknown", 90, 1, some ⟨1, 1540, 0, 1540, 1540, 1540, "mg/dL"⟩,
          some ⟨0, 0, 1000, 0, 0⟩, 70, 0, "stable", [], "mg/dL"⟩ =
      gmiTenths (analyzeValues 0 gmiStore).sum (analyzeValues 0 gmiStore).length ∧
    gmiTenths 154 1 = 70 :=
  ⟨(C8_gmi.1 false ⟨55, 70, 180, 250⟩ (fun _ => none) 90 0 gmiStore
      ⟨"unknown", "unknown", 90, 1, some ⟨1, 1540, 0, 1540, 1540, 1540, "mg/dL"⟩,
        some ⟨0, 0, 1000, 0, 0⟩, 70, 0, "stable", [], "mg/dL"⟩ (by decide)).1,
   C8_gmi.2⟩

/-- C10 witness: termination applied to an immediately-exhausted remote, and
non-termination applied to a constant dateless page. -/
theorem C10_pagination_termination_witness :
    (fetchLoop (fun _ => ([] : List Entry)) 0 1 none [] 0).isSome = true ∧
    fetchLoop (fun _ => [entryNoDate]) 0 3 none [] 0 = none :=
  ⟨C10_pagination_termination.1 (fun _ => []) 0 1 none [] 0
      ⟨0, Nat.zero_lt_one, Or.inl rfl⟩,
   C10_pagination_termination.2.2.2.2 (fun _ => [entryNoDate]) 0
     (fun req => ⟨by simp, fun e he => by
        simp only [List.mem_singleton] at he
        subst he
        rfl⟩) 3 none [] 0⟩

end NightscoutCGM

